import Mathlib

/-!
Verification of the leus-backend URL shortener core against its
natural-language specification.

The embedding models:
* the Redis client as an association list of key-value entries, each entry
  carrying the optional expiry that redis SET may attach (`app/storage/redis_store.py`);
* the `RedisStore` methods `set_url`, `get_url`, `set_reverse_mapping`,
  `get_short_code`, `exists` and `ping`;
* the shortener service `generate_shortened_code`, `shorten_url`,
  `reverse_url` (`app/services/shortener.py`), with the stream of
  `secrets.token_urlsafe(8)` outputs as an explicit parameter and counters
  for existence checks and writes;
* `secrets.token_urlsafe` as padding-free base64url encoding of a byte list;
* the short-code extraction performed by the `/reverse` HTTP handler
  (`app/main.py`): `urlparse(short_url).path.lstrip("/")`.
-/

namespace Leus

/-- One stored redis value: the payload string and the optional expiry
(in seconds) that the write attached; `none` means the key never expires. -/
structure Entry where
  value : String
  ttl : Option Nat
deriving DecidableEq

/-- The redis database: an association list from keys to entries; the most
recent write for a key is at the front and shadows older ones. -/
structure Store where
  data : List (String × Entry)
deriving DecidableEq

/-- The empty database. -/
def Store.empty : Store := ⟨[]⟩

/-- Redis `SET key value [EX seconds]`: an upsert; when no `EX` is given the
key is stored without expiry (this also clears any previous expiry). -/
def clientSet (s : Store) (k v : String) (ex : Option Nat) : Store :=
  ⟨(k, ⟨v, ex⟩) :: s.data⟩

/-- Redis `GET key`: the value of the most recent write, or `none`. -/
def clientGet (s : Store) (k : String) : Option String :=
  (s.data.lookup k).map Entry.value

/-- Redis `EXISTS key`: the number of the given keys that exist (here one key). -/
def clientExists (s : Store) (k : String) : Nat :=
  if (s.data.lookup k).isSome then 1 else 0

/-- `RedisStore.set_url`: `self.client.set(f"url:{short_code}", long_url)` —
a plain SET on the `url:`-prefixed keyspace, with no expiry argument. -/
def Store.set_url (s : Store) (short_code long_url : String) : Store :=
  clientSet s ("url:" ++ short_code) long_url none

/-- `RedisStore.get_url`: `self.client.get(f"url:{short_code}")`. -/
def Store.get_url (s : Store) (short_code : String) : Option String :=
  clientGet s ("url:" ++ short_code)

/-- `RedisStore.set_reverse_mapping`: `self.client.set(f"reverse:{long_url}", short_code)`. -/
def Store.set_reverse_mapping (s : Store) (long_url short_code : String) : Store :=
  clientSet s ("reverse:" ++ long_url) short_code none

/-- `RedisStore.get_short_code`: `self.client.get(f"reverse:{long_url}")`. -/
def Store.get_short_code (s : Store) (long_url : String) : Option String :=
  clientGet s ("reverse:" ++ long_url)

/-- `RedisStore.exists`: `self.client.exists(f"url:{short_code}") > 0`.
(The Python method is named `exists`; that name is a Lean keyword.) -/
def Store.existsCode (s : Store) (short_code : String) : Bool :=
  decide (0 < clientExists s ("url:" ++ short_code))

/-- The TTL recorded on a key by the most recent write: `none` when the key
is absent, `some none` for a permanent entry, `some (some t)` for expiry `t`. -/
def writtenTTL (s : Store) (k : String) : Option (Option Nat) :=
  (s.data.lookup k).map Entry.ttl

/-- Modelled from the spec (and the repository's tests, which assert
`setex(key, 600, value)`): the default TTL constant `URL_TTL`. -/
def URL_TTL : Nat := 600

/-- Modelled from the spec: a forward write as an "upsert with expiry"
(`write_forward(code, long_url, ttl)`), attaching the given TTL.
The definition exists only to be compared with `Store.set_url`. -/
def set_url_withTTL (s : Store) (short_code long_url : String) (ttl : Nat) : Store :=
  clientSet s ("url:" ++ short_code) long_url (some ttl)

/-- The redis exceptions relevant here: `redis.ConnectionError` (the
connectivity fault) and any other redis error. -/
inductive RedisExc where
  | connectionError
  | otherError
deriving DecidableEq

/-- `RedisStore.ping`: `try: return self.client.ping() except redis.ConnectionError:
return False`. The underlying client call's outcome is the argument. -/
def ping (clientPing : Except RedisExc Bool) : Except RedisExc Bool :=
  match clientPing with
  | .error .connectionError => .ok false
  | r => r

/-- A redis read as performed over the network: it returns the stored value
when the connection is healthy and raises `ConnectionError` otherwise. -/
def clientGetE (healthy : Bool) (s : Store) (k : String) : Except RedisExc (Option String) :=
  if healthy then .ok (clientGet s k) else .error .connectionError

/-- `RedisStore.get_url` with connectivity made explicit. -/
def get_urlE (healthy : Bool) (s : Store) (short_code : String) :
    Except RedisExc (Option String) :=
  clientGetE healthy s ("url:" ++ short_code)

/-- `reverse_url` (service layer) with connectivity made explicit: it calls
`store.get_url` and propagates any store-level failure. -/
def reverse_urlE (healthy : Bool) (s : Store) (short_url_code : String) :
    Except RedisExc (Option String) :=
  get_urlE healthy s short_url_code

/-- The base64url alphabet used by `base64.urlsafe_b64encode`. -/
def b64Alphabet : List Char :=
  "ABCDEFGHIJKLMNOPQRSTUVWXYZabcdefghijklmnopqrstuvwxyz0123456789-_".data

/-- The character for a 6-bit group. -/
def b64Char (n : Nat) : Char := b64Alphabet.getD n 'A'

/-- Padding-free base64url encoding of a list of bytes, three bytes to four
characters, with the standard shortened final group and the `=` padding
stripped (as `secrets.token_urlsafe` does). -/
def b64encodeL : List Nat → List Char
  | [] => []
  | [b1] => [b64Char (b1 / 4), b64Char (b1 % 4 * 16)]
  | [b1, b2] => [b64Char (b1 / 4), b64Char (b1 % 4 * 16 + b2 / 16), b64Char (b2 % 16 * 4)]
  | b1 :: b2 :: b3 :: rest =>
      b64Char (b1 / 4) :: b64Char (b1 % 4 * 16 + b2 / 16) ::
      b64Char (b2 % 16 * 4 + b3 / 64) :: b64Char (b3 % 64) :: b64encodeL rest

/-- `secrets.token_urlsafe` applied to the given random bytes:
base64url-encode and strip padding. `token_urlsafe(8)` corresponds to a
`bytes` argument of length 8. -/
def token_urlsafe (bytes : List Nat) : String := ⟨b64encodeL bytes⟩

/-- Characters of the base64url alphabet, as a predicate. -/
def goodCodeChar (c : Char) : Bool :=
  c.isAlphanum || c == '-' || c == '_'

/-- The result of `generate_shortened_code`, with the store threaded through
and counters for existence checks and forward writes; `exhausted` is the
`RuntimeError` raise, carrying its message. -/
inductive GenResult where
  | ok (code : String) (s : Store) (checks writes : Nat)
  | exhausted (msg : String) (s : Store) (checks writes : Nat)
deriving DecidableEq

/-- The retry loop body of `generate_shortened_code`: `for _ in range(10)`,
each iteration drawing candidate `cands i`, checking `store.exists` and on a
miss writing `store.set_url(code, long_url)` and returning the code. `i` is
the next candidate index, `r` the remaining iterations. -/
def genIter (cands : Nat → String) (long_url : String) (s : Store)
    (i checks writes : Nat) : Nat → GenResult
  | 0 => .exhausted "Failed to generate unique short code after 10 attempts" s checks writes
  | r + 1 =>
      if s.existsCode (cands i) then
        genIter cands long_url s (i + 1) (checks + 1) writes r
      else
        .ok (cands i) (s.set_url (cands i) long_url) (checks + 1) (writes + 1)

/-- `generate_shortened_code(long_url)`: up to 10 attempts starting from the
first candidate, with zeroed counters. -/
def generate_shortened_code (cands : Nat → String) (long_url : String) (s : Store) : GenResult :=
  genIter cands long_url s 0 0 0 10

/-- The short-URL base used by `shorten_url`'s f-string. -/
def shortBase : String := "http://localhost:3000/"

/-- The result of `shorten_url`: the composed short URL and resulting store,
with the number of `generate_shortened_code` invocations; or the propagated
exhaustion error. -/
inductive ShortenResult where
  | ok (shortUrl : String) (s : Store) (genCalls : Nat)
  | exhausted (msg : String) (s : Store)
deriving DecidableEq

/-- `shorten_url(url)`: reuse the reverse-index code when present; otherwise
generate a fresh code (which also writes the forward mapping) and write the
reverse mapping, then compose `f"http://localhost:3000/{short_url_code}"`. -/
def shorten_url (cands : Nat → String) (s : Store) (url : String) : ShortenResult :=
  match s.get_short_code url with
  | some code => .ok (shortBase ++ code) s 0
  | none =>
      match generate_shortened_code cands url s with
      | .ok code s' _ _ => .ok (shortBase ++ code) (s'.set_reverse_mapping url code) 1
      | .exhausted msg s' _ _ => .exhausted msg s'

/-- `reverse_url(short_url_code)`: `store.get_url(short_url_code)`. -/
def reverse_url (s : Store) (short_url_code : String) : Option String :=
  s.get_url short_url_code

/-- Split a character list at the first occurrence of `c`, if any. -/
def splitFirst (c : Char) : List Char → Option (List Char × List Char)
  | [] => none
  | x :: xs =>
      if x = c then some ([], xs)
      else (splitFirst c xs).map (fun p => (x :: p.1, p.2))

/-- Characters permitted after the first in a URL scheme
(`urllib.parse`'s `scheme_chars`). -/
def isSchemeChar (c : Char) : Bool :=
  c.isAlphanum || c == '+' || c == '-' || c == '.'

/-- A valid URL scheme: nonempty, a letter first, scheme characters after. -/
def validScheme : List Char → Bool
  | [] => false
  | x :: xs => x.isAlpha && xs.all isSchemeChar

/-- Strip a leading `scheme:` when the text before the first colon is a valid
scheme, as `urllib.parse.urlsplit` does. -/
def afterScheme (l : List Char) : List Char :=
  match splitFirst ':' l with
  | some (before, rest) => if validScheme before then rest else l
  | none => l

/-- Strip a leading `//netloc`, the netloc running to the next `/`, `?` or
`#`, as `urllib.parse.urlsplit` does. -/
def dropNetloc : List Char → List Char
  | '/' :: '/' :: rest => rest.dropWhile (fun c => c != '/' && c != '?' && c != '#')
  | l => l

/-- The `path` component of `urllib.parse.urlparse`: what remains after
scheme and netloc, cut at the first `#` or `?`. -/
def urlPathL (l : List Char) : List Char :=
  (dropNetloc (afterScheme l)).takeWhile (fun c => c != '#' && c != '?')

/-- The `/reverse` handler's code extraction (`app/main.py`):
`urlparse(req.short_url).path.lstrip("/")`. -/
def extract_code (short_url : String) : String :=
  ⟨(urlPathL short_url.data).dropWhile (fun c => c == '/')⟩

/-- Modelled from the spec: the extraction the spec describes, "taking only
the first path segment, discarding any trailing segments". The definition
exists only to be compared with `extract_code`. -/
def firstPathSegment (short_url : String) : String :=
  ⟨((urlPathL short_url.data).dropWhile (fun c => c == '/')).takeWhile (fun c => c != '/')⟩

/-! ## Basic store lemmas -/

theorem clientGet_set_same (s : Store) (k v : String) (ex : Option Nat) :
    clientGet (clientSet s k v ex) k = some v := by
  simp [clientGet, clientSet, List.lookup]

theorem clientGet_set_other (s : Store) (k k' v : String) (ex : Option Nat) (h : k ≠ k') :
    clientGet (clientSet s k' v ex) k = clientGet s k := by
  have hb : (k == k') = false := beq_eq_false_iff_ne.mpr h
  simp [clientGet, clientSet, List.lookup, hb]

theorem urlKey_ne_revKey (a b : String) : ("url:" ++ a) ≠ ("reverse:" ++ b) := by
  intro h
  have hd := congrArg String.data h
  simp [String.data_append] at hd

theorem urlKey_inj (a b : String) (h : ("url:" ++ a) = ("url:" ++ b)) : a = b := by
  have hd := congrArg String.data h
  rw [String.data_append, String.data_append] at hd
  exact String.ext (List.append_cancel_left hd)

/-! ## Token lemmas -/

theorem b64Char_good (n : Nat) : goodCodeChar (b64Char n) = true := by
  unfold b64Char List.getD
  rcases hg : b64Alphabet[n]? with _ | c
  · simp [hg]; decide
  · have hm : c ∈ b64Alphabet := by
      have := List.getElem?_eq_some.mp hg
      rcases this with ⟨hlt, he⟩
      exact he ▸ List.getElem_mem hlt
    have hall : ∀ x ∈ b64Alphabet, goodCodeChar x = true := by decide
    simp [hg]
    exact hall c hm

theorem b64encodeL_good (bs : List Nat) : ∀ x ∈ b64encodeL bs, goodCodeChar x = true := by
  induction bs using b64encodeL.induct with
  | case1 => intro x hx; simp [b64encodeL] at hx
  | case2 b1 =>
      intro x hx
      simp [b64encodeL] at hx
      rcases hx with h | h <;> (subst h; exact b64Char_good _)
  | case3 b1 b2 =>
      intro x hx
      simp [b64encodeL] at hx
      rcases hx with h | h | h <;> (subst h; exact b64Char_good _)
  | case4 b1 b2 b3 rest ih =>
      intro x hx
      simp [b64encodeL] at hx
      rcases hx with h | h | h | h | h
      · subst h; exact b64Char_good _
      · subst h; exact b64Char_good _
      · subst h; exact b64Char_good _
      · subst h; exact b64Char_good _
      · exact ih x h

theorem b64encodeL_length8 : ∀ bs : List Nat, bs.length = 8 → (b64encodeL bs).length = 11 := by
  intro bs h
  rcases bs with _ | ⟨b1, bs⟩ <;> simp_all
  rcases bs with _ | ⟨b2, bs⟩ <;> simp_all
  rcases bs with _ | ⟨b3, bs⟩ <;> simp_all
  rcases bs with _ | ⟨b4, bs⟩ <;> simp_all
  rcases bs with _ | ⟨b5, bs⟩ <;> simp_all
  rcases bs with _ | ⟨b6, bs⟩ <;> simp_all
  rcases bs with _ | ⟨b7, bs⟩ <;> simp_all
  rcases bs with _ | ⟨b8, bs⟩ <;> simp_all
  rcases bs with _ | ⟨b9, bs⟩ <;> simp_all [b64encodeL]

theorem token_urlsafe_good (bs : List Nat) :
    ∀ x ∈ (token_urlsafe bs).data, goodCodeChar x = true :=
  b64encodeL_good bs

theorem token_urlsafe_length (bs : List Nat) (h : bs.length = 8) :
    (token_urlsafe bs).length = 11 :=
  b64encodeL_length8 bs h

/-! ## Extraction lemmas -/

theorem takeWhile_all {p : Char → Bool} :
    ∀ l : List Char, (∀ x ∈ l, p x = true) → l.takeWhile p = l := by
  intro l h
  induction l with
  | nil => rfl
  | cons x xs ih =>
      have hx := h x (by simp)
      have ih' := ih fun y hy => h y (by simp [hy])
      simp [List.takeWhile, hx, ih']

theorem dropWhile_none {p : Char → Bool} :
    ∀ l : List Char, (∀ x ∈ l, p x = false) → l.dropWhile p = l := by
  intro l h
  cases l with
  | nil => rfl
  | cons x xs =>
      have hx := h x (by simp)
      simp [List.dropWhile, hx]

theorem goodCodeChar_props (c : Char) (h : goodCodeChar c = true) :
    (c != '#' && c != '?') = true ∧ (c == '/') = false := by
  have h1 : c ≠ '#' := by intro he; subst he; exact absurd h (by decide)
  have h2 : c ≠ '?' := by intro he; subst he; exact absurd h (by decide)
  have h3 : c ≠ '/' := by intro he; subst he; exact absurd h (by decide)
  have b1 : (c == '#') = false := beq_eq_false_iff_ne.mpr h1
  have b2 : (c == '?') = false := beq_eq_false_iff_ne.mpr h2
  have b3 : (c == '/') = false := beq_eq_false_iff_ne.mpr h3
  refine ⟨?_, b3⟩
  simp [bne, b1, b2]

theorem urlPathL_base (cd : List Char) :
    urlPathL ("http://localhost:3000/".data ++ cd) =
      '/' :: cd.takeWhile (fun c => c != '#' && c != '?') := rfl

theorem extract_code_base (c : String) (h : ∀ x ∈ c.data, goodCodeChar x = true) :
    extract_code (shortBase ++ c) = c := by
  have hd : (shortBase ++ c).data = "http://localhost:3000/".data ++ c.data :=
    String.data_append shortBase c
  unfold extract_code
  rw [hd, urlPathL_base]
  have ht : c.data.takeWhile (fun ch => ch != '#' && ch != '?') = c.data :=
    takeWhile_all c.data fun x hx => ((goodCodeChar_props x (h x hx)).1)
  rw [ht]
  have hdrop : c.data.dropWhile (fun ch => ch == '/') = c.data :=
    dropWhile_none c.data fun x hx => ((goodCodeChar_props x (h x hx)).2)
  have hstep : List.dropWhile (fun ch => ch == '/') ('/' :: c.data) = c.data := by
    rw [List.dropWhile_cons]
    simp [hdrop]
  rw [hstep]

/-! ## Generation-loop lemmas -/

theorem genIter_collides (cands : Nat → String) (u : String) (s : Store) :
    ∀ (N : Nat) (i ch w r : Nat), N < r →
      (∀ j, j < N → s.existsCode (cands (i + j)) = true) →
      s.existsCode (cands (i + N)) = false →
      genIter cands u s i ch w r =
        .ok (cands (i + N)) (s.set_url (cands (i + N)) u) (ch + N + 1) (w + 1) := by
  intro N
  induction N with
  | zero =>
      intro i ch w r hr hcol hfree
      rcases r with _ | r
      · omega
      · simp [genIter, Nat.add_zero] at hfree ⊢
        simp [hfree]
  | succ m ih =>
      intro i ch w r hr hcol hfree
      rcases r with _ | r
      · omega
      · have h0 : s.existsCode (cands i) = true := by
          simpa using hcol 0 (by omega)
        simp [genIter, h0]
        have hcol' : ∀ j, j < m → s.existsCode (cands (i + 1 + j)) = true := by
          intro j hj
          have := hcol (j + 1) (by omega)
          have he : i + (j + 1) = i + 1 + j := by omega
          rwa [he] at this
        have hfree' : s.existsCode (cands (i + 1 + m)) = false := by
          have he : i + (m + 1) = i + 1 + m := by omega
          rwa [he] at hfree
        have hrec := ih (i + 1) (ch + 1) w r (by omega) hcol' hfree'
        rw [hrec]
        have h1 : i + 1 + m = i + (m + 1) := by omega
        have h2 : ch + 1 + m + 1 = ch + (m + 1) + 1 := by omega
        rw [h1, h2]

theorem genIter_exhausts (cands : Nat → String) (u : String) (s : Store) :
    ∀ (r i ch w : Nat),
      (∀ j, j < r → s.existsCode (cands (i + j)) = true) →
      genIter cands u s i ch w r =
        .exhausted "Failed to generate unique short code after 10 attempts" s (ch + r) w := by
  intro r
  induction r with
  | zero => intro i ch w _; simp [genIter]
  | succ m ih =>
      intro i ch w hcol
      have h0 : s.existsCode (cands i) = true := by simpa using hcol 0 (by omega)
      simp [genIter, h0]
      have hcol' : ∀ j, j < m → s.existsCode (cands (i + 1 + j)) = true := by
        intro j hj
        have := hcol (j + 1) (by omega)
        have he : i + (j + 1) = i + 1 + j := by omega
        rwa [he] at this
      have hrec := ih (i + 1) (ch + 1) w hcol'
      rw [hrec]
      congr 1
      omega

theorem genIter_ok_inv (cands : Nat → String) (u : String) (s : Store) :
    ∀ (r i ch w : Nat) (code : String) (s' : Store) (ch' w' : Nat),
      genIter cands u s i ch w r = .ok code s' ch' w' →
      (∃ j, code = cands j) ∧ s' = s.set_url code u := by
  intro r
  induction r with
  | zero => intro i ch w code s' ch' w' h; simp [genIter] at h
  | succ m ih =>
      intro i ch w code s' ch' w' h
      by_cases hx : s.existsCode (cands i) = true
      · rw [genIter, if_pos hx] at h
        exact ih (i + 1) (ch + 1) w code s' ch' w' h
      · rw [genIter, if_neg hx] at h
        cases h
        exact ⟨⟨i, rfl⟩, rfl⟩

/-! ## Claim theorems -/

/-- Claim C1: shortening the same URL twice in immediate succession yields
the same short URL both times; the second call leaves the store unchanged and
invokes the code generator zero times, so across the two calls the generator
runs at most once. (The code attaches no expiry to any entry, so nothing can
expire between the calls.) -/
theorem C1_shorten_idempotent (cands cands2 : Nat → String) (s : Store) (u su : String)
    (s1 : Store) (g1 : Nat)
    (h1 : shorten_url cands s u = .ok su s1 g1) :
    shorten_url cands2 s1 u = .ok su s1 0 ∧ g1 ≤ 1 := by
  unfold shorten_url at h1
  cases hrc : s.get_short_code u with
  | some c =>
      rw [hrc] at h1
      cases h1
      rw [shorten_url, hrc]
      exact ⟨rfl, by omega⟩
  | none =>
      rw [hrc] at h1
      cases hg : generate_shortened_code cands u s with
      | ok code s' ch w =>
          rw [hg] at h1
          cases h1
          have hsc : (s'.set_reverse_mapping u code).get_short_code u = some code :=
            clientGet_set_same s' ("reverse:" ++ u) code none
          rw [shorten_url, hsc]
          exact ⟨rfl, by omega⟩
      | exhausted msg s' ch w =>
          rw [hg] at h1
          cases h1

/-- Witness for C1 at a concrete input: a fresh shorten of `https://e.x`
from the empty store, then a second shorten of the same URL. -/
theorem C1_shorten_idempotent_witness :
    shorten_url (fun _ => "c0")
        ((Store.empty.set_url "c0" "https://e.x").set_reverse_mapping "https://e.x" "c0")
        "https://e.x" =
      .ok (shortBase ++ "c0")
        ((Store.empty.set_url "c0" "https://e.x").set_reverse_mapping "https://e.x" "c0") 0 ∧
    (1 : Nat) ≤ 1 :=
  C1_shorten_idempotent (fun _ => "c0") (fun _ => "c0") Store.empty "https://e.x"
    (shortBase ++ "c0")
    ((Store.empty.set_url "c0" "https://e.x").set_reverse_mapping "https://e.x" "c0") 1
    (by decide)

/-- Claim C2: resolving the code that the HTTP layer extracts from the result
of `shorten_url u` returns `u`, provided the candidate codes are
`token_urlsafe` outputs and, for a previously-seen URL, its forward/reverse
entry pair is still intact (neither entry has expired or been overwritten). -/
theorem C2_roundtrip (cands : Nat → String) (s : Store) (u su : String) (s1 : Store) (g : Nat)
    (htok : ∀ i, ∃ bs : List Nat, bs.length = 8 ∧ cands i = token_urlsafe bs)
    (hpair : ∀ c, s.get_short_code u = some c →
        s.get_url c = some u ∧ ∀ x ∈ c.data, goodCodeChar x = true)
    (hok : shorten_url cands s u = .ok su s1 g) :
    reverse_url s1 (extract_code su) = some u := by
  unfold shorten_url at hok
  cases hrc : s.get_short_code u with
  | some c =>
      rw [hrc] at hok
      cases hok
      obtain ⟨hf, hgood⟩ := hpair c hrc
      rw [extract_code_base c hgood]
      exact hf
  | none =>
      rw [hrc] at hok
      cases hg : generate_shortened_code cands u s with
      | ok code s' ch w =>
          rw [hg] at hok
          cases hok
          unfold generate_shortened_code at hg
          obtain ⟨⟨j, hj⟩, hs'⟩ := genIter_ok_inv cands u s 10 0 0 0 code s' ch w hg
          obtain ⟨bs, hlen, htk⟩ := htok j
          have hgood : ∀ x ∈ code.data, goodCodeChar x = true := by
            rw [hj, htk]; exact token_urlsafe_good bs
          rw [extract_code_base code hgood]
          show (s'.set_reverse_mapping u code).get_url code = some u
          unfold Store.get_url Store.set_reverse_mapping
          rw [clientGet_set_other _ _ _ _ _ (urlKey_ne_revKey code u)]
          rw [hs']
          exact clientGet_set_same s ("url:" ++ code) u none
      | exhausted msg s' ch w =>
          rw [hg] at hok
          cases hok

/-- Witness for C2 at a concrete input: shortening `https://e.x` from the
empty store with all-zero random bytes and resolving the extracted code. -/
theorem C2_roundtrip_witness :
    reverse_url
      ((Store.empty.set_url (token_urlsafe [0, 0, 0, 0, 0, 0, 0, 0]) "https://e.x").set_reverse_mapping
        "https://e.x" (token_urlsafe [0, 0, 0, 0, 0, 0, 0, 0]))
      (extract_code (shortBase ++ token_urlsafe [0, 0, 0, 0, 0, 0, 0, 0])) =
      some "https://e.x" :=
  C2_roundtrip (fun _ => token_urlsafe [0, 0, 0, 0, 0, 0, 0, 0]) Store.empty "https://e.x"
    (shortBase ++ token_urlsafe [0, 0, 0, 0, 0, 0, 0, 0])
    ((Store.empty.set_url (token_urlsafe [0, 0, 0, 0, 0, 0, 0, 0]) "https://e.x").set_reverse_mapping
      "https://e.x" (token_urlsafe [0, 0, 0, 0, 0, 0, 0, 0])) 1
    (fun _ => ⟨[0, 0, 0, 0, 0, 0, 0, 0], rfl, rfl⟩)
    (fun c h => nomatch h)
    (by decide)

/-- Claim C3: when the first `N` candidate codes collide with the forward
index and the `(N+1)`-th does not (`N < 10`), `generate_shortened_code`
returns the `(N+1)`-th candidate, having performed exactly `N+1` existence
checks and exactly one forward write (of that candidate). -/
theorem C3_collision_retry (cands : Nat → String) (u : String) (s : Store) (N : Nat)
    (hN : N < 10)
    (hcol : ∀ j, j < N → s.existsCode (cands j) = true)
    (hfree : s.existsCode (cands N) = false) :
    generate_shortened_code cands u s =
      .ok (cands N) (s.set_url (cands N) u) (N + 1) 1 := by
  unfold generate_shortened_code
  have h := genIter_collides cands u s N 0 0 0 10 hN (by simpa using hcol) (by simpa using hfree)
  simpa using h

/-- Witness for C3 at a concrete input: the first candidate `aa` already
exists, the second candidate `bb` is fresh (`N = 1`). -/
theorem C3_collision_retry_witness :
    generate_shortened_code (fun i => if i = 0 then "aa" else "bb") "https://e.x"
        (Store.empty.set_url "aa" "https://old.example") =
      .ok "bb" ((Store.empty.set_url "aa" "https://old.example").set_url "bb" "https://e.x") 2 1 :=
  C3_collision_retry (fun i => if i = 0 then "aa" else "bb") "https://e.x"
    (Store.empty.set_url "aa" "https://old.example") 1
    (by decide) (by decide) (by decide)

/-- Claim C4: when all 10 candidate codes collide, `generate_shortened_code`
raises the explicit exhaustion error (the `RuntimeError` message), having
performed 10 existence checks and zero writes, with the store unchanged. -/
theorem C4_exhaustion (cands : Nat → String) (u : String) (s : Store)
    (hcol : ∀ j, j < 10 → s.existsCode (cands j) = true) :
    generate_shortened_code cands u s =
      .exhausted "Failed to generate unique short code after 10 attempts" s 10 0 := by
  unfold generate_shortened_code
  have h := genIter_exhausts cands u s 10 0 0 0 (by simpa using hcol)
  simpa using h

/-- Witness for C4 at a concrete input: every candidate is the already-stored
code `aa`, so all 10 attempts collide. -/
theorem C4_exhaustion_witness :
    generate_shortened_code (fun _ => "aa") "https://e.x"
        (Store.empty.set_url "aa" "https://old.example") =
      .exhausted "Failed to generate unique short code after 10 attempts"
        (Store.empty.set_url "aa" "https://old.example") 10 0 :=
  C4_exhaustion (fun _ => "aa") "https://e.x"
    (Store.empty.set_url "aa" "https://old.example") (by decide)

/-- Claim C5 (code bug): the store's writes attach no expiry at all.
`Store.set_url` and `Store.set_reverse_mapping` issue a plain SET, so the
written entry carries TTL `none` (permanent), not the claimed default of 600
seconds, and `set_url` differs from the spec-modelled `set_url_withTTL` with
`URL_TTL`. (The repository's own tests assert `setex(key, 600, value)` and a
`URL_TTL` constant, which the code does not implement.) -/
theorem C5_writes_have_no_ttl :
    writtenTTL (Store.empty.set_url "abc123" "https://www.example.com/a") "url:abc123" =
      some none ∧
    writtenTTL (Store.empty.set_reverse_mapping "https://www.example.com/a" "abc123")
      "reverse:https://www.example.com/a" = some none ∧
    Store.empty.set_url "abc123" "https://www.example.com/a" ≠
      set_url_withTTL Store.empty "abc123" "https://www.example.com/a" URL_TTL := by
  refine ⟨?_, ?_, ?_⟩ <;> decide

/-- Claim C6: `ping` returns `true` when the client responds `true`, and on a
connectivity fault (`redis.ConnectionError`) it returns `false` rather than
letting the error propagate. -/
theorem C6_ping_liveness :
    ping (Except.ok true) = Except.ok true ∧
    ping (Except.error RedisExc.connectionError) = Except.ok false ∧
    ping (Except.error RedisExc.connectionError) ≠ Except.error RedisExc.connectionError ∧
    ping (Except.error RedisExc.connectionError) ≠ Except.error RedisExc.otherError := by
  refine ⟨rfl, rfl, ?_, ?_⟩ <;> (intro h; simp [ping] at h)

/-- Claim C7: under the scenario hypotheses (URL not previously seen,
`zzz999` absent, candidates drawn from `token_urlsafe` on 8 random bytes, and
`shorten_url` succeeding), the returned short URL is the base followed by an
11-character code over the URL-safe alphabet; resolving that code returns the
original URL, and resolving `zzz999` returns absent. -/
theorem C7_scenario (cands : Nat → String) (s : Store) (u su : String) (s1 : Store) (g : Nat)
    (htok : ∀ i, ∃ bs : List Nat, bs.length = 8 ∧ cands i = token_urlsafe bs)
    (hnew : s.get_short_code u = none)
    (habs : s.get_url "zzz999" = none)
    (hok : shorten_url cands s u = .ok su s1 g) :
    su = shortBase ++ extract_code su ∧
    (extract_code su).length = 11 ∧
    (extract_code su).data.all goodCodeChar = true ∧
    reverse_url s1 (extract_code su) = some u ∧
    reverse_url s1 "zzz999" = none := by
  unfold shorten_url at hok
  rw [hnew] at hok
  cases hg : generate_shortened_code cands u s with
  | ok code s' ch w =>
      rw [hg] at hok
      cases hok
      unfold generate_shortened_code at hg
      obtain ⟨⟨j, hj⟩, hs'⟩ := genIter_ok_inv cands u s 10 0 0 0 code s' ch w hg
      obtain ⟨bs, hlen, htk⟩ := htok j
      have hgood : ∀ x ∈ code.data, goodCodeChar x = true := by
        rw [hj, htk]; exact token_urlsafe_good bs
      have hex : extract_code (shortBase ++ code) = code := extract_code_base code hgood
      rw [hex]
      refine ⟨rfl, ?_, ?_, ?_, ?_⟩
      · rw [hj, htk]; exact token_urlsafe_length bs hlen
      · exact List.all_eq_true.mpr hgood
      · show (s'.set_reverse_mapping u code).get_url code = some u
        unfold Store.get_url Store.set_reverse_mapping
        rw [clientGet_set_other _ _ _ _ _ (urlKey_ne_revKey code u)]
        rw [hs']
        exact clientGet_set_same s ("url:" ++ code) u none
      · unfold reverse_url Store.get_url Store.set_reverse_mapping
        rw [clientGet_set_other _ _ _ _ _ (urlKey_ne_revKey "zzz999" u)]
        rw [hs']
        unfold Store.set_url
        have hne : ("url:" ++ "zzz999" : String) ≠ ("url:" ++ code) := by
          intro he
          have h6 : ("zzz999" : String) = code := urlKey_inj _ _ he
          have hl := congrArg String.length h6
          rw [hj, htk, token_urlsafe_length bs hlen] at hl
          exact absurd hl (by decide)
        rw [clientGet_set_other _ _ _ _ _ hne]
        exact habs
  | exhausted msg s' ch w =>
      rw [hg] at hok
      cases hok

/-- Witness for C7 at a concrete input: shortening the spec's example URL
from the empty store with all-zero random bytes (code `AAAAAAAAAAA`). -/
theorem C7_scenario_witness :
    shortBase ++ token_urlsafe [0, 0, 0, 0, 0, 0, 0, 0] =
      shortBase ++ extract_code (shortBase ++ token_urlsafe [0, 0, 0, 0, 0, 0, 0, 0]) ∧
    (extract_code (shortBase ++ token_urlsafe [0, 0, 0, 0, 0, 0, 0, 0])).length = 11 ∧
    (extract_code (shortBase ++ token_urlsafe [0, 0, 0, 0, 0, 0, 0, 0])).data.all goodCodeChar
      = true ∧
    reverse_url
      ((Store.empty.set_url (token_urlsafe [0, 0, 0, 0, 0, 0, 0, 0])
        "https://www.example.com/very/long/path").set_reverse_mapping
        "https://www.example.com/very/long/path" (token_urlsafe [0, 0, 0, 0, 0, 0, 0, 0]))
      (extract_code (shortBase ++ token_urlsafe [0, 0, 0, 0, 0, 0, 0, 0])) =
      some "https://www.example.com/very/long/path" ∧
    reverse_url
      ((Store.empty.set_url (token_urlsafe [0, 0, 0, 0, 0, 0, 0, 0])
        "https://www.example.com/very/long/path").set_reverse_mapping
        "https://www.example.com/very/long/path" (token_urlsafe [0, 0, 0, 0, 0, 0, 0, 0]))
      "zzz999" = none :=
  C7_scenario (fun _ => token_urlsafe [0, 0, 0, 0, 0, 0, 0, 0]) Store.empty
    "https://www.example.com/very/long/path"
    (shortBase ++ token_urlsafe [0, 0, 0, 0, 0, 0, 0, 0])
    ((Store.empty.set_url (token_urlsafe [0, 0, 0, 0, 0, 0, 0, 0])
      "https://www.example.com/very/long/path").set_reverse_mapping
      "https://www.example.com/very/long/path" (token_urlsafe [0, 0, 0, 0, 0, 0, 0, 0])) 1
    (fun _ => ⟨[0, 0, 0, 0, 0, 0, 0, 0], rfl, rfl⟩)
    rfl rfl (by decide)

/-- Claim C8: resolving a short code whose forward key is absent yields the
explicit absent value `none` without raising; the absent outcome is an `ok`
result, distinct from the connectivity-failure outcome. -/
theorem C8_not_found (s : Store) (code : String)
    (h : s.data.lookup ("url:" ++ code) = none) :
    reverse_url s code = none ∧
    reverse_urlE true s code = Except.ok none ∧
    reverse_urlE true s code ≠ Except.error RedisExc.connectionError ∧
    reverse_urlE true s code ≠ Except.error RedisExc.otherError ∧
    reverse_urlE false s code = Except.error RedisExc.connectionError := by
  refine ⟨?_, ?_, ?_, ?_, rfl⟩
  · simp [reverse_url, Store.get_url, clientGet, h]
  · simp [reverse_urlE, get_urlE, clientGetE, clientGet, h]
  · simp [reverse_urlE, get_urlE, clientGetE, clientGet, h]
  · simp [reverse_urlE, get_urlE, clientGetE, clientGet, h]

/-- Witness for C8 at a concrete input: resolving `nonexistent-code` against
the empty store. -/
theorem C8_not_found_witness :
    reverse_url Store.empty "nonexistent-code" = none ∧
    reverse_urlE true Store.empty "nonexistent-code" = Except.ok none ∧
    reverse_urlE true Store.empty "nonexistent-code" ≠
      Except.error RedisExc.connectionError ∧
    reverse_urlE true Store.empty "nonexistent-code" ≠ Except.error RedisExc.otherError ∧
    reverse_urlE false Store.empty "nonexistent-code" =
      Except.error RedisExc.connectionError :=
  C8_not_found Store.empty "nonexistent-code" rfl

/-- Claim C9 (code bug): the `/reverse` handler's extraction keeps trailing
path segments: `urlparse(...).path.lstrip("/")` only strips leading slashes,
so for `http://localhost:3000/abc123/extra/path` it passes
`abc123/extra/path` to `reverse_url`, not the first segment `abc123` that the
spec (and the repository's test docstrings) describe, as `firstPathSegment`
computes. -/
theorem C9_extraction_keeps_trailing_segments :
    extract_code "http://localhost:3000/abc123/extra/path" = "abc123/extra/path" ∧
    firstPathSegment "http://localhost:3000/abc123/extra/path" = "abc123" ∧
    extract_code "http://localhost:3000/abc123/extra/path" ≠
      firstPathSegment "http://localhost:3000/abc123/extra/path" := by
  refine ⟨?_, ?_, ?_⟩ <;> decide

/-- Claim C10: for every store state and short code, the existence check and
the forward read agree — `Store.existsCode` is `true` exactly when
`reverse_url` (which reads the same `url:`-prefixed key) returns a value. -/
theorem C10_exists_agrees_with_read (s : Store) (code : String) :
    s.existsCode code = true ↔ (reverse_url s code).isSome = true := by
  unfold reverse_url Store.existsCode Store.get_url clientExists clientGet
  cases h : s.data.lookup ("url:" ++ code) <;> simp [h]

end Leus
